import Mathlib

/-!
Verification of the projectile-motion demo (`src/main.py`).

The numeric domain of the source (Python floats) is modelled by the real
numbers `ℝ`.  A Python `line` value `[(x, y), (mouse_x, mouse_y)]` is
modelled as a pair of pairs.  The process-wide mutable variables of the
main loop (`ball.x`, `ball.y`, `shooting`, `start_x`, `start_y`, `time`,
`power`, `angle`) are gathered in a state structure, and one iteration of
the `while True` loop becomes an explicit state-transition function.
-/

namespace ProjectileMotion

open Real

/-- Constant `WIDTH = 1200` from `main.py`. -/
def WIDTH : ℝ := 1200

/-- Constant `HEIGHT = 500` from `main.py`. -/
def HEIGHT : ℝ := 500

/-- Constant `RADIUS = 10` from `main.py`. -/
def RADIUS : ℝ := 10

/-- Constant `START_X = WIDTH / 2` from `main.py`. -/
noncomputable def START_X : ℝ := WIDTH / 2

/-- Constant `START_Y = HEIGHT - RADIUS - 1` from `main.py`. -/
noncomputable def START_Y : ℝ := HEIGHT - RADIUS - 1

/-- `Ball.next_position` from `main.py`:
```
velocity_x = cos(angle) * power
velocity_y = sin(angle) * power
distance_x = velocity_x * time
distance_y = velocity_y * time - 4.9 * time ** 2
next_x = start_x + distance_x
next_y = start_y - distance_y
return next_x, next_y
``` -/
noncomputable def next_position (start_x start_y power angle time : ℝ) : ℝ × ℝ :=
  let velocity_x := Real.cos angle * power
  let velocity_y := Real.sin angle * power
  let distance_x := velocity_x * time
  let distance_y := velocity_y * time - 4.9 * time ^ 2
  let next_x := start_x + distance_x
  let next_y := start_y - distance_y
  (next_x, next_y)

/-- `get_power` from `main.py`:
`sqrt((line[1][1] - line[0][1]) ** 2 + (line[1][0] - line[0][0]) ** 2) / 8`. -/
noncomputable def get_power (line : (ℝ × ℝ) × (ℝ × ℝ)) : ℝ :=
  Real.sqrt ((line.2.2 - line.1.2) ^ 2 + (line.2.1 - line.1.1) ^ 2) / 8

open Classical in
/-- `get_angle` from `main.py`: a raw single-branch arctangent (with the
`mouse_x == x` case hardcoded to `π / 2`), followed by the chain of
quadrant-correction branches. -/
noncomputable def get_angle (line : (ℝ × ℝ) × (ℝ × ℝ)) : ℝ :=
  let x := line.1.1
  let y := line.1.2
  let mouse_x := line.2.1
  let mouse_y := line.2.2
  let angle :=
    if mouse_x ≠ x then Real.arctan ((mouse_y - y) / (mouse_x - x))
    else Real.pi / 2
  if x < mouse_x ∧ y > mouse_y then |angle|
  else if x > mouse_x ∧ y > mouse_y then Real.pi - angle
  else if x > mouse_x ∧ y < mouse_y then Real.pi + |angle|
  else if x < mouse_x ∧ y < mouse_y then 2 * Real.pi - angle
  else angle

/-- The process-wide mutable state of the main loop of `main.py`:
the ball's position, the `shooting` flag and the captured launch data. -/
structure GState where
  ball_x : ℝ
  ball_y : ℝ
  shooting : Bool
  start_x : ℝ
  start_y : ℝ
  time : ℝ
  power : ℝ
  angle : ℝ

open Classical in
/-- The physics phase of one loop iteration of `main.py`:
```
if shooting:
  if ball.y <= HEIGHT - ball.radius:
    time += 0.05
    position = ball.next_position(start_x, start_y, power, angle, time)
    ball.x = position[0]
    ball.y = position[1]
  else:
    shooting = False
    ball.y = START_Y
```
The single ball is constructed with radius `RADIUS`, so `ball.radius`
is `RADIUS` throughout the run. -/
noncomputable def physicsStep (s : GState) : GState :=
  if s.shooting then
    if s.ball_y ≤ HEIGHT - RADIUS then
      let t := s.time + 0.05
      let p := next_position s.start_x s.start_y s.power s.angle t
      { s with time := t, ball_x := p.1, ball_y := p.2 }
    else
      { s with shooting := false, ball_y := START_Y }
  else s

/-- The `MOUSEBUTTONDOWN` handler of `main.py`, with the polled mouse
position passed as an argument:
```
if not shooting:
  shooting = True
  line = [(ball.x, ball.y), pygame.mouse.get_pos()]
  start_x = ball.x
  start_y = ball.y
  time = 0
  power = get_power(line)
  angle = get_angle(line)
``` -/
noncomputable def handlePress (s : GState) (mouse : ℝ × ℝ) : GState :=
  if s.shooting then s
  else
    let line := ((s.ball_x, s.ball_y), mouse)
    { s with
        shooting := true
        start_x := s.ball_x
        start_y := s.ball_y
        time := 0
        power := get_power line
        angle := get_angle line }

/-- The event-drain phase of one loop iteration: every pending
`MOUSEBUTTONDOWN` event is handled in order (each given by the mouse
position polled at that moment).  `QUIT` only terminates the loop and
`draw_window` has no effect on the state, so neither appears here. -/
noncomputable def handleEvents (s : GState) (presses : List (ℝ × ℝ)) : GState :=
  presses.foldl handlePress s

/-- One full iteration of the `while True` loop of `main.py`: the physics
phase, the (state-irrelevant) drawing, then the event drain. -/
noncomputable def tick (s : GState) (presses : List (ℝ × ℝ)) : GState :=
  handleEvents (physicsStep s) presses

/-- Running the main loop over a trace: one list of press positions per
iteration. -/
noncomputable def run (s : GState) : List (List (ℝ × ℝ)) → GState
  | [] => s
  | presses :: rest => run (tick s presses) rest

/-- The initial state of `main.py`: the ball rests at
`(START_X, START_Y)`, `shooting = False`, and the launch data variables
are initialized to `0`. -/
noncomputable def initState : GState :=
  { ball_x := START_X
    ball_y := START_Y
    shooting := false
    start_x := 0
    start_y := 0
    time := 0
    power := 0
    angle := 0 }

/-- Division that fails (like Python's `ZeroDivisionError`) when the
divisor is zero. -/
noncomputable def divChecked (a b : ℝ) : Option ℝ :=
  if b = 0 then none else some (a / b)

open Classical in
/-- `get_angle` with the Python division modelled as fallible: the result
is `none` exactly when a `ZeroDivisionError` would be raised. -/
noncomputable def get_angleChecked (line : (ℝ × ℝ) × (ℝ × ℝ)) : Option ℝ :=
  let x := line.1.1
  let y := line.1.2
  let mouse_x := line.2.1
  let mouse_y := line.2.2
  let raw : Option ℝ :=
    if mouse_x ≠ x then (divChecked (mouse_y - y) (mouse_x - x)).map Real.arctan
    else some (Real.pi / 2)
  raw.map fun angle =>
    if x < mouse_x ∧ y > mouse_y then |angle|
    else if x > mouse_x ∧ y > mouse_y then Real.pi - angle
    else if x > mouse_x ∧ y < mouse_y then Real.pi + |angle|
    else if x < mouse_x ∧ y < mouse_y then 2 * Real.pi - angle
    else angle

/-- Square root that fails (like Python's `math.sqrt` on a negative
argument) when the argument is negative. -/
noncomputable def sqrtChecked (x : ℝ) : Option ℝ :=
  if x < 0 then none else some (Real.sqrt x)

/-- `get_power` with the Python square root modelled as fallible. -/
noncomputable def get_powerChecked (line : (ℝ × ℝ) × (ℝ × ℝ)) : Option ℝ :=
  (sqrtChecked ((line.2.2 - line.1.2) ^ 2 + (line.2.1 - line.1.1) ^ 2)).map
    fun r => r / 8

/-- The angle computation as §4.2 of the spec words it: raw single-branch
arctangent of `Δy/Δx` (with `π/2` when `Δx = 0`), followed by the quadrant
adjustment keyed on the signs of `mouse_x − x` and `mouse_y − y`
("above" means `mouse_y < y` in screen coordinates). -/
noncomputable def angleSpec (x y mouse_x mouse_y : ℝ) : ℝ :=
  let raw :=
    if mouse_x - x ≠ 0 then Real.arctan ((mouse_y - y) / (mouse_x - x))
    else Real.pi / 2
  if 0 < mouse_x - x ∧ mouse_y < y then |raw|
  else if mouse_x - x < 0 ∧ mouse_y < y then Real.pi - raw
  else if mouse_x - x < 0 ∧ y < mouse_y then Real.pi + |raw|
  else if 0 < mouse_x - x ∧ y < mouse_y then 2 * Real.pi - raw
  else raw

/-- The Idle half of the loop invariant: `shooting` is clear and the ball
rests at pad height `START_Y`. -/
def IdlePad (s : GState) : Prop :=
  s.shooting = false ∧ s.ball_y = START_Y

/-- The Airborne half of the loop invariant: `shooting` is set and the
captured launch parameters are valid (`power ≥ 0`, `angle ∈ [0, 2π)`,
`time ≥ 0`). -/
def AirborneOK (s : GState) : Prop :=
  s.shooting = true ∧ 0 ≤ s.power ∧ 0 ≤ s.angle ∧ s.angle < 2 * Real.pi ∧
    0 ≤ s.time

/-- The loop invariant: one of the two phases holds. -/
def Inv (s : GState) : Prop :=
  IdlePad s ∨ AirborneOK s

/-- C1: `next_position` returns exactly
`(start_x + power·cos(angle)·time, start_y − (power·sin(angle)·time − 4.9·time²))`:
horizontal velocity `power·cos(angle)`, vertical velocity
`power·sin(angle)`, vertical displacement `v_y·t − 4.9·t²`, with the
screen y axis inverted. -/
theorem next_position_closed_form (start_x start_y power angle time : ℝ) :
    next_position start_x start_y power angle time =
      (start_x + power * Real.cos angle * time,
       start_y - (power * Real.sin angle * time - 4.9 * time ^ 2)) := by
  simp only [next_position, Prod.mk.injEq]
  constructor <;> ring

/-- C6: `get_power` returns the Euclidean distance between the two
endpoints of the drag segment divided by 8, and it is zero exactly when
the two endpoints coincide. -/
theorem get_power_spec (line : (ℝ × ℝ) × (ℝ × ℝ)) :
    get_power line =
      Real.sqrt ((line.2.1 - line.1.1) ^ 2 + (line.2.2 - line.1.2) ^ 2) / 8 ∧
    (get_power line = 0 ↔ line.1 = line.2) := by
  constructor
  · simp only [get_power]
    rw [add_comm]
  · simp only [get_power]
    rw [div_eq_zero_iff]
    constructor
    · intro h
      rcases h with h | h
      · rw [Real.sqrt_eq_zero (by positivity)] at h
        have h1 : line.2.2 - line.1.2 = 0 := by nlinarith [sq_nonneg (line.2.2 - line.1.2), sq_nonneg (line.2.1 - line.1.1)]
        have h2 : line.2.1 - line.1.1 = 0 := by nlinarith [sq_nonneg (line.2.2 - line.1.2), sq_nonneg (line.2.1 - line.1.1)]
        have hx : line.1.1 = line.2.1 := by linarith
        have hy : line.1.2 = line.2.2 := by linarith
        exact Prod.ext hx hy
      · norm_num at h
    · intro h
      rw [h]
      simp

/-- C5: `get_angle` computes exactly the raw-arctangent-plus-quadrant
adjustment described by the spec, and a vertical drag (`Δx = 0`) always
returns `π/2`, whatever the sign of `Δy`. -/
theorem get_angle_spec (x y mx my : ℝ) :
    get_angle ((x, y), (mx, my)) = angleSpec x y mx my ∧
    get_angle ((x, y), (x, my)) = Real.pi / 2 := by
  constructor
  · simp only [get_angle, angleSpec, sub_ne_zero, sub_pos, sub_neg, gt_iff_lt]
  · simp [get_angle, lt_irrefl]

/-- C4 evaluation: a drag directly right gives angle `0` and a drag
directly up gives `π/2`, as claimed; but a drag directly left
(`dx = −10, dy = 0`) falls through every quadrant branch of `get_angle`
and yields `0`, not `π` — and `0 ≠ π`. -/
theorem get_angle_axis_drags :
    get_angle ((0, 0), (10, 0)) = 0 ∧
    get_angle ((0, 0), (0, -10)) = Real.pi / 2 ∧
    get_angle ((0, 0), (-10, 0)) = 0 ∧
    (0 : ℝ) ≠ Real.pi := by
  refine ⟨?_, ?_, ?_, ?_⟩
  · norm_num [get_angle, Real.arctan_zero]
  · norm_num [get_angle]
  · norm_num [get_angle, Real.arctan_zero]
  · exact fun h => absurd h.symm (ne_of_gt Real.pi_pos)

/-- C10: the domain operations are total.  With the Python square root
and division modelled as fallible, `get_power` never fails (its `sqrt`
argument is a sum of squares) and `get_angle` never fails — the division
by `mouse_x − x` is guarded by the `mouse_x ≠ x` test — and both agree
with the unchecked functions on every drag segment. -/
theorem domain_ops_total (line : (ℝ × ℝ) × (ℝ × ℝ)) :
    get_powerChecked line = some (get_power line) ∧
    get_angleChecked line = some (get_angle line) := by
  constructor
  · have hnn : ¬ ((line.2.2 - line.1.2) ^ 2 + (line.2.1 - line.1.1) ^ 2 < 0) :=
      not_lt.mpr (by positivity)
    simp [get_powerChecked, sqrtChecked, get_power, hnn]
  · simp only [get_angleChecked, get_angle, divChecked]
    by_cases h : line.2.1 = line.1.1
    · simp [h]
    · have h' : line.2.1 - line.1.1 ≠ 0 := sub_ne_zero.mpr h
      simp [h, h']

/-- C9: a mouse-button press is a no-op while `shooting` is set; while
idle it captures the drag segment from the current ball position to the
pointer, derives power and angle from it, resets the clock and raises
`shooting`. -/
theorem press_only_when_idle (s : GState) (mouse : ℝ × ℝ) :
    (s.shooting = true → handlePress s mouse = s) ∧
    (s.shooting = false →
      handlePress s mouse =
        { s with
            shooting := true
            start_x := s.ball_x
            start_y := s.ball_y
            time := 0
            power := get_power ((s.ball_x, s.ball_y), mouse)
            angle := get_angle ((s.ball_x, s.ball_y), mouse) }) := by
  constructor <;> intro h <;> simp [handlePress, h]

/-- Witness for C9 at concrete states: a press while shooting leaves the
state untouched, and a press while idle installs the derived launch
data. -/
theorem press_only_when_idle_witness :
    handlePress ⟨1, 2, true, 3, 4, 5, 6, 7⟩ (8, 9) = ⟨1, 2, true, 3, 4, 5, 6, 7⟩ ∧
    handlePress ⟨1, 2, false, 3, 4, 5, 6, 7⟩ (8, 9) =
      ⟨1, 2, true, 1, 2, 0, get_power ((1, 2), (8, 9)), get_angle ((1, 2), (8, 9))⟩ := by
  refine ⟨(press_only_when_idle _ _).1 rfl, ?_⟩
  have h := (press_only_when_idle ⟨1, 2, false, 3, 4, 5, 6, 7⟩ (8, 9)).2 rfl
  simpa using h

/-- C8: from any launch, there is a time `T ≥ 0` after which the screen
y-coordinate produced by `next_position` is strictly increasing — the
ball eventually only falls. -/
theorem eventually_falls (sx sy p a : ℝ) :
    ∃ T, 0 ≤ T ∧ ∀ t1 t2, T ≤ t1 → t1 < t2 →
      (next_position sx sy p a t1).2 < (next_position sx sy p a t2).2 := by
  refine ⟨|Real.sin a * p| / 9.8, by positivity, ?_⟩
  intro t1 t2 h1 h2
  simp only [next_position]
  have hva : Real.sin a * p ≤ |Real.sin a * p| := le_abs_self _
  have habs : |Real.sin a * p| ≤ 9.8 * t1 := by
    rw [div_le_iff₀ (by norm_num : (0:ℝ) < 9.8)] at h1
    linarith
  have h3 : 0 < 4.9 * (t1 + t2) - Real.sin a * p := by nlinarith
  have h4 : 0 < (t2 - t1) * (4.9 * (t1 + t2) - Real.sin a * p) :=
    mul_pos (by linarith) h3
  nlinarith [h4]

/-- Witness for C8 at the zero launch. -/
theorem eventually_falls_witness :
    ∃ T, 0 ≤ T ∧ ∀ t1 t2, T ≤ t1 → t1 < t2 →
      (next_position 0 0 0 0 t1).2 < (next_position 0 0 0 0 t2).2 :=
  eventually_falls 0 0 0 0

/-- C2 (amended): when the ball is airborne strictly below the ground
line (`ball_y > HEIGHT − RADIUS`), the next iteration clears `shooting`
and snaps `ball_y` back to `START_Y = 489`, but leaves `ball_x` at its
current value — the x coordinate is not snapped to `600`. -/
theorem landing_snaps_y_only (s : GState) (hs : s.shooting = true)
    (hy : HEIGHT - RADIUS < s.ball_y) :
    (physicsStep s).shooting = false ∧
    (physicsStep s).ball_y = START_Y ∧
    (physicsStep s).ball_x = s.ball_x := by
  have hnle : ¬ s.ball_y ≤ HEIGHT - RADIUS := not_le.mpr hy
  simp [physicsStep, hs, hnle]

/-- Witness for the amended C2 at a concrete airborne state below the
ground line. -/
theorem landing_snaps_y_only_witness :
    (physicsStep ⟨700, 495, true, 0, 0, 0, 0, 0⟩).shooting = false ∧
    (physicsStep ⟨700, 495, true, 0, 0, 0, 0, 0⟩).ball_y = START_Y ∧
    (physicsStep ⟨700, 495, true, 0, 0, 0, 0, 0⟩).ball_x = 700 :=
  landing_snaps_y_only ⟨700, 495, true, 0, 0, 0, 0, 0⟩ rfl
    (by norm_num [HEIGHT, RADIUS])

lemma run_nil (s : GState) : run s [] = s := rfl

lemma run_cons (s : GState) (p : List (ℝ × ℝ)) (rest : List (List (ℝ × ℝ))) :
    run s (p :: rest) = run (tick s p) rest := rfl

lemma handlePress_shooting (s : GState) (m : ℝ × ℝ) (h : s.shooting = true) :
    handlePress s m = s := by
  simp [handlePress, h]

lemma handleEvents_shooting (s : GState) (ps : List (ℝ × ℝ))
    (h : s.shooting = true) : handleEvents s ps = s := by
  induction ps with
  | nil => rfl
  | cons p ps ih =>
      have hcons : handleEvents s (p :: ps) = handleEvents s ps := by
        simp only [handleEvents, List.foldl_cons, handlePress_shooting s p h]
      rw [hcons, ih]

lemma get_power_nonneg (line : (ℝ × ℝ) × (ℝ × ℝ)) : 0 ≤ get_power line :=
  div_nonneg (Real.sqrt_nonneg _) (by norm_num)

lemma get_angle_range (line : (ℝ × ℝ) × (ℝ × ℝ)) :
    0 ≤ get_angle line ∧ get_angle line < 2 * Real.pi := by
  obtain ⟨⟨x, y⟩, ⟨mx, my⟩⟩ := line
  have hpi := Real.pi_pos
  simp only [get_angle]
  set a : ℝ := if mx ≠ x then Real.arctan ((my - y) / (mx - x)) else Real.pi / 2
    with ha
  have haL : -(Real.pi / 2) < a := by
    rw [ha]; split_ifs with h
    · exact Real.neg_pi_div_two_lt_arctan _
    · linarith
  have haU : a ≤ Real.pi / 2 := by
    rw [ha]; split_ifs with h
    · exact le_of_lt (Real.arctan_lt_pi_div_two _)
    · exact le_refl _
  have habs : |a| ≤ Real.pi / 2 := abs_le.mpr ⟨by linarith, haU⟩
  split_ifs with h1 h2 h3 h4
  · exact ⟨abs_nonneg a, by linarith [abs_le.mp habs |>.2]⟩
  · constructor <;> linarith
  · exact ⟨by linarith [abs_nonneg a], by linarith [abs_le.mp habs |>.2]⟩
  · have hx : mx ≠ x := ne_of_gt h4.1
    have hr : 0 < (my - y) / (mx - x) :=
      div_pos (by linarith [h4.2]) (by linarith [h4.1])
    have hapos : 0 < a := by
      rw [ha, if_pos hx]
      have hm := Real.arctan_strictMono hr
      rwa [Real.arctan_zero] at hm
    constructor <;> linarith
  · constructor
    · by_cases hx : mx = x
      · rw [ha, if_neg (by simp [hx])]
        linarith
      · have hy : my = y := by
          rcases lt_trichotomy x mx with hlt | heq | hgt
          · rcases lt_trichotomy my y with h | h | h
            · exact absurd ⟨hlt, h⟩ h1
            · exact h
            · exact absurd ⟨hlt, h⟩ h4
          · exact absurd heq.symm hx
          · rcases lt_trichotomy my y with h | h | h
            · exact absurd ⟨hgt, h⟩ h2
            · exact h
            · exact absurd ⟨hgt, h⟩ h3
        rw [ha, if_pos hx, hy]
        simp
    · linarith

lemma inv_physicsStep (s : GState) (h : Inv s) : Inv (physicsStep s) := by
  unfold physicsStep
  split_ifs with hs hy
  · rcases h with ⟨hf, _⟩ | ⟨_, hp, ha1, ha2, ht⟩
    · rw [hf] at hs; exact absurd hs (by simp)
    · right
      refine ⟨hs, hp, ha1, ha2, ?_⟩
      show (0 : ℝ) ≤ s.time + 0.05
      linarith
  · left
    exact ⟨rfl, rfl⟩
  · exact h

lemma inv_handlePress (s : GState) (m : ℝ × ℝ) (h : Inv s) :
    Inv (handlePress s m) := by
  unfold handlePress
  split_ifs with hs
  · exact h
  · right
    exact ⟨rfl, get_power_nonneg _, (get_angle_range _).1, (get_angle_range _).2,
      le_refl 0⟩

lemma inv_handleEvents (ps : List (ℝ × ℝ)) :
    ∀ s : GState, Inv s → Inv (handleEvents s ps) := by
  induction ps with
  | nil => exact fun s h => h
  | cons p ps ih =>
      intro s h
      have hcons : handleEvents s (p :: ps) = handleEvents (handlePress s p) ps :=
        rfl
      rw [hcons]
      exact ih _ (inv_handlePress s p h)

lemma inv_tick (s : GState) (p : List (ℝ × ℝ)) (h : Inv s) : Inv (tick s p) :=
  inv_handleEvents p _ (inv_physicsStep s h)

lemma inv_run (tr : List (List (ℝ × ℝ))) :
    ∀ s : GState, Inv s → Inv (run s tr) := by
  induction tr with
  | nil => exact fun s h => h
  | cons p rest ih =>
      intro s h
      rw [run_cons]
      exact ih _ (inv_tick s p h)

/-- C3 (amended): at the top of every loop iteration, exactly one of the
two phases holds — Idle with the ball at pad height `ball_y = START_Y`
(`ball_x` is not constrained to `600`: after a landing it keeps the last
airborne x), or Airborne with valid launch parameters. -/
theorem loop_invariant (trace : List (List (ℝ × ℝ))) :
    (IdlePad (run initState trace) ∧ ¬ AirborneOK (run initState trace)) ∨
    (AirborneOK (run initState trace) ∧ ¬ IdlePad (run initState trace)) := by
  have h : Inv (run initState trace) :=
    inv_run trace initState (Or.inl ⟨rfl, rfl⟩)
  rcases h with h | h
  · left
    refine ⟨h, fun hc => ?_⟩
    have h1 := h.1
    have h2 := hc.1
    rw [h1] at h2
    exact absurd h2 (by simp)
  · right
    refine ⟨h, fun hc => ?_⟩
    have h1 := h.1
    have h2 := hc.1
    rw [h2] at h1
    exact absurd h1 (by simp)

lemma sqrt_sixty_four : Real.sqrt 64 = 8 := by
  rw [show (64 : ℝ) = 8 ^ 2 by norm_num, Real.sqrt_sq (by norm_num : (0:ℝ) ≤ 8)]

lemma launch_power : get_power ((600, 489), (608, 489)) = 1 := by
  have h : ((489 : ℝ) - 489) ^ 2 + ((608 : ℝ) - 600) ^ 2 = 64 := by norm_num
  rw [get_power]
  simp only
  rw [h, sqrt_sixty_four]
  norm_num

lemma launch_angle : get_angle ((600, 489), (608, 489)) = 0 := by
  rw [get_angle]
  norm_num [Real.arctan_zero]

lemma trace_step1 :
    tick initState [(608, 489)] =
      ⟨600, 489, true, 600, 489, 0, 1, 0⟩ := by
  have hinit : initState = ⟨600, 489, false, 0, 0, 0, 0, 0⟩ := by
    rw [initState]
    norm_num [START_X, START_Y, WIDTH, HEIGHT, RADIUS]
  rw [tick, hinit]
  rw [show physicsStep ⟨600, 489, false, 0, 0, 0, 0, 0⟩ = ⟨600, 489, false, 0, 0, 0, 0, 0⟩ by
    rw [physicsStep]; simp]
  rw [handleEvents]
  simp only [List.foldl]
  rw [handlePress]
  simp only [Bool.false_eq_true, if_false]
  rw [show ((⟨600, 489, false, 0, 0, 0, 0, 0⟩ : GState).ball_x, (⟨600, 489, false, 0, 0, 0, 0, 0⟩ : GState).ball_y) = ((600 : ℝ), (489 : ℝ)) from rfl]
  simp only [launch_power, launch_angle]

lemma tick_move (bx by' sx sy t p a : ℝ) (hy : by' ≤ HEIGHT - RADIUS) :
    tick ⟨bx, by', true, sx, sy, t, p, a⟩ [] =
      ⟨sx + Real.cos a * p * (t + 0.05),
       sy - (Real.sin a * p * (t + 0.05) - 4.9 * (t + 0.05) ^ 2),
       true, sx, sy, t + 0.05, p, a⟩ := by
  rw [tick, handleEvents]
  simp only [List.foldl]
  rw [physicsStep]
  simp only [hy, if_true, if_pos]
  simp only [GState.mk.injEq, next_position, and_true, true_and]

lemma tick_move01 (bx by' t : ℝ) (hy : by' ≤ 490) :
    tick ⟨bx, by', true, 600, 489, t, 1, 0⟩ [] =
      ⟨600 + (t + 0.05), 489 + 4.9 * (t + 0.05) ^ 2, true, 600, 489, t + 0.05, 1, 0⟩ := by
  rw [tick_move bx by' 600 489 t 1 0 (by rw [HEIGHT, RADIUS]; norm_num; linarith)]
  simp [GState.mk.injEq]

lemma tick_land (bx by' sx sy t p a : ℝ) (hy : HEIGHT - RADIUS < by') :
    tick ⟨bx, by', true, sx, sy, t, p, a⟩ [] =
      ⟨bx, START_Y, false, sx, sy, t, p, a⟩ := by
  rw [tick, handleEvents]
  simp only [List.foldl]
  rw [physicsStep]
  simp only [not_le.mpr hy, if_false, if_true, if_pos]

lemma trace_step2 :
    tick ⟨600, 489, true, 600, 489, 0, 1, 0⟩ [] =
      ⟨600.05, 489.01225, true, 600, 489, 0.05, 1, 0⟩ := by
  rw [tick_move01 _ _ _ (by norm_num)]
  norm_num [GState.mk.injEq]

lemma trace_step3 :
    tick ⟨600.05, 489.01225, true, 600, 489, 0.05, 1, 0⟩ [] =
      ⟨600.1, 489.049, true, 600, 489, 0.1, 1, 0⟩ := by
  rw [tick_move01 _ _ _ (by norm_num)]
  norm_num [GState.mk.injEq]

lemma trace_step4 :
    tick ⟨600.1, 489.049, true, 600, 489, 0.1, 1, 0⟩ [] =
      ⟨600.15, 489.11025, true, 600, 489, 0.15, 1, 0⟩ := by
  rw [tick_move01 _ _ _ (by norm_num)]
  norm_num [GState.mk.injEq]

lemma trace_step5 :
    tick ⟨600.15, 489.11025, true, 600, 489, 0.15, 1, 0⟩ [] =
      ⟨600.2, 489.196, true, 600, 489, 0.2, 1, 0⟩ := by
  rw [tick_move01 _ _ _ (by norm_num)]
  norm_num [GState.mk.injEq]

lemma trace_step6 :
    tick ⟨600.2, 489.196, true, 600, 489, 0.2, 1, 0⟩ [] =
      ⟨600.25, 489.30625, true, 600, 489, 0.25, 1, 0⟩ := by
  rw [tick_move01 _ _ _ (by norm_num)]
  norm_num [GState.mk.injEq]

lemma trace_step7 :
    tick ⟨600.25, 489.30625, true, 600, 489, 0.25, 1, 0⟩ [] =
      ⟨600.3, 489.441, true, 600, 489, 0.3, 1, 0⟩ := by
  rw [tick_move01 _ _ _ (by norm_num)]
  norm_num [GState.mk.injEq]

lemma trace_step8 :
    tick ⟨600.3, 489.441, true, 600, 489, 0.3, 1, 0⟩ [] =
      ⟨600.35, 489.60025, true, 600, 489, 0.35, 1, 0⟩ := by
  rw [tick_move01 _ _ _ (by norm_num)]
  norm_num [GState.mk.injEq]

lemma trace_step9 :
    tick ⟨600.35, 489.60025, true, 600, 489, 0.35, 1, 0⟩ [] =
      ⟨600.4, 489.784, true, 600, 489, 0.4, 1, 0⟩ := by
  rw [tick_move01 _ _ _ (by norm_num)]
  norm_num [GState.mk.injEq]

lemma trace_step10 :
    tick ⟨600.4, 489.784, true, 600, 489, 0.4, 1, 0⟩ [] =
      ⟨600.45, 489.99225, true, 600, 489, 0.45, 1, 0⟩ := by
  rw [tick_move01 _ _ _ (by norm_num)]
  norm_num [GState.mk.injEq]

lemma trace_step11 :
    tick ⟨600.45, 489.99225, true, 600, 489, 0.45, 1, 0⟩ [] =
      ⟨600.5, 490.225, true, 600, 489, 0.5, 1, 0⟩ := by
  rw [tick_move01 _ _ _ (by norm_num)]
  norm_num [GState.mk.injEq]

lemma trace_step12 :
    tick ⟨600.5, 490.225, true, 600, 489, 0.5, 1, 0⟩ [] =
      ⟨600.5, 489, false, 600, 489, 0.5, 1, 0⟩ := by
  rw [tick_land _ _ _ _ _ _ _ (by rw [HEIGHT, RADIUS]; norm_num)]
  norm_num [START_Y, HEIGHT, RADIUS, GState.mk.injEq]

lemma trace_chain11 :
    run initState [[(608, 489)], [], [], [], [], [], [], [], [], [], []] =
      ⟨600.5, 490.225, true, 600, 489, 0.5, 1, 0⟩ := by
  rw [run_cons, trace_step1, run_cons, trace_step2, run_cons, trace_step3, run_cons, trace_step4, run_cons, trace_step5, run_cons, trace_step6, run_cons, trace_step7, run_cons, trace_step8, run_cons, trace_step9, run_cons, trace_step10, run_cons, trace_step11, run_nil]

lemma trace_chain12 :
    run initState [[(608, 489)], [], [], [], [], [], [], [], [], [], [], []] =
      ⟨600.5, 489, false, 600, 489, 0.5, 1, 0⟩ := by
  rw [run_cons, trace_step1, run_cons, trace_step2, run_cons, trace_step3, run_cons, trace_step4, run_cons, trace_step5, run_cons, trace_step6, run_cons, trace_step7, run_cons, trace_step8, run_cons, trace_step9, run_cons, trace_step10, run_cons, trace_step11, run_cons, trace_step12, run_nil]

/-- C2 counterexample: from the initial state, a press at `(608, 489)`
followed by ten event-free iterations reaches an airborne state with
`ball_y = 490.225 ≥ HEIGHT − RADIUS`; the next iteration lands the ball
at `ball_x = 600.5 ≠ 600`, so the x coordinate is not snapped to the
launch pad.  Moreover at `ball_y = HEIGHT − RADIUS` exactly (the `≥`
boundary) the ball is advanced, not landed: `shooting` stays set. -/
theorem landing_counterexample :
    (run initState [[(608, 489)], [], [], [], [], [], [], [], [], [], []]).shooting = true ∧
    HEIGHT - RADIUS ≤ (run initState [[(608, 489)], [], [], [], [], [], [], [], [], [], []]).ball_y ∧
    (run initState [[(608, 489)], [], [], [], [], [], [], [], [], [], [], []]).ball_x = 600.5 ∧
    (600.5 : ℝ) ≠ 600 ∧
    (physicsStep ⟨600, 490, true, 600, 489, 0.45, 1, 0⟩).shooting = true := by
  rw [trace_chain11, trace_chain12]
  refine ⟨rfl, by rw [HEIGHT, RADIUS]; norm_num, rfl, by norm_num, ?_⟩
  rw [physicsStep]
  norm_num [HEIGHT, RADIUS]

/-- C3 counterexample: after the same launch and flight, the twelfth
iteration lands the ball: `shooting` is false but the ball rests at
`ball_x = 600.5`, not at the launch pad x `600`, so neither disjunct of
the claimed invariant holds. -/
theorem invariant_counterexample :
    (run initState [[(608, 489)], [], [], [], [], [], [], [], [], [], [], []]).shooting = false ∧
    (run initState [[(608, 489)], [], [], [], [], [], [], [], [], [], [], []]).ball_x ≠ 600 := by
  rw [trace_chain12]
  norm_num

lemma airborne_run (tr : List (List (ℝ × ℝ))) :
    ∀ s : GState, s.shooting = true →
    (∀ k, k < tr.length → (run s (tr.take k)).ball_y ≤ HEIGHT - RADIUS) →
    (run s tr).shooting = true ∧
    (run s tr).start_x = s.start_x ∧ (run s tr).start_y = s.start_y ∧
    (run s tr).power = s.power ∧ (run s tr).angle = s.angle ∧
    (run s tr).time = s.time + 0.05 * tr.length ∧
    (tr ≠ [] → ((run s tr).ball_x, (run s tr).ball_y) =
        next_position s.start_x s.start_y s.power s.angle
          (s.time + 0.05 * tr.length)) := by
  induction tr with
  | nil =>
      intro s hs _
      refine ⟨hs, rfl, rfl, rfl, rfl, by rw [run_nil]; simp, by simp⟩
  | cons p rest ih =>
      intro s hs hy
      have hy0 : s.ball_y ≤ HEIGHT - RADIUS := by
        have h0 := hy 0 (by simp)
        simpa [run_nil] using h0
      have hstep : physicsStep s =
          { s with
            time := s.time + 0.05
            ball_x := (next_position s.start_x s.start_y s.power s.angle
              (s.time + 0.05)).1
            ball_y := (next_position s.start_x s.start_y s.power s.angle
              (s.time + 0.05)).2 } := by
        rw [physicsStep]
        simp only [hs, if_true, hy0, if_pos]
      have htick : tick s p =
          { s with
            time := s.time + 0.05
            ball_x := (next_position s.start_x s.start_y s.power s.angle
              (s.time + 0.05)).1
            ball_y := (next_position s.start_x s.start_y s.power s.angle
              (s.time + 0.05)).2 } := by
        rw [tick, hstep]
        exact handleEvents_shooting _ p (by simp [hs])
      have hy' : ∀ k, k < rest.length →
          (run (tick s p) (rest.take k)).ball_y ≤ HEIGHT - RADIUS := by
        intro k hk
        have hk1 := hy (k + 1) (by simpa using Nat.succ_lt_succ hk)
        rw [List.take_succ_cons, run_cons] at hk1
        exact hk1
      obtain ⟨g1, g2, g3, g4, g5, g6, g7⟩ :=
        ih (tick s p) (by rw [htick]; simp [hs]) hy'
      rw [run_cons]
      rw [htick] at g1 g2 g3 g4 g5 g6 g7 ⊢
      refine ⟨g1, g2, g3, g4, g5, ?_, ?_⟩
      · rw [g6]
        push_cast [List.length_cons]
        ring
      · intro _
        by_cases hrest : rest = []
        · subst hrest
          rw [run_nil]
          push_cast [List.length_cons]
          norm_num
        · have g7' := g7 hrest
          rw [g7']
          congr 1
          push_cast [List.length_cons]
          ring

/-- C7: from a freshly launched state (`shooting` set, clock at `0`, ball
at the captured start position), a sequence of iterations that stays
airborne (the ball at or above the ground line at the start of each one)
adds exactly `0.05` to the clock per iteration and places the ball at
`next_position` of the captured launch parameters; after `n` such
iterations the position is `next_position start power angle (0.05·n)`.
Pending mouse presses during those iterations are ignored. -/
theorem airborne_ticks_accumulate (s0 : GState) (tr : List (List (ℝ × ℝ)))
    (hs : s0.shooting = true) (ht : s0.time = 0)
    (hbx : s0.ball_x = s0.start_x) (hby : s0.ball_y = s0.start_y)
    (hy : ∀ k, k < tr.length → (run s0 (tr.take k)).ball_y ≤ HEIGHT - RADIUS) :
    (run s0 tr).time = 0.05 * tr.length ∧
    ((run s0 tr).ball_x, (run s0 tr).ball_y) =
      next_position s0.start_x s0.start_y s0.power s0.angle
        (0.05 * tr.length) := by
  obtain ⟨g1, g2, g3, g4, g5, g6, g7⟩ := airborne_run tr s0 hs hy
  constructor
  · rw [g6, ht]; ring
  · by_cases htr : tr = []
    · subst htr
      rw [run_nil, hbx, hby]
      norm_num [next_position]
    · have g7' := g7 htr
      rw [g7', ht]
      norm_num

/-- Witness for C7: one event-free airborne iteration from a concrete
launch state with power `0`. -/
theorem airborne_ticks_accumulate_witness :
    (run ⟨600, 489, true, 600, 489, 0, 0, 0⟩ [[]]).time =
      0.05 * (([[]] : List (List (ℝ × ℝ))).length : ℝ) ∧
    ((run ⟨600, 489, true, 600, 489, 0, 0, 0⟩ [[]]).ball_x,
     (run ⟨600, 489, true, 600, 489, 0, 0, 0⟩ [[]]).ball_y) =
      next_position 600 489 0 0
        (0.05 * (([[]] : List (List (ℝ × ℝ))).length : ℝ)) :=
  airborne_ticks_accumulate ⟨600, 489, true, 600, 489, 0, 0, 0⟩ [[]] rfl rfl rfl rfl
    (by
      intro k hk
      simp only [List.length_cons, List.length_nil] at hk
      have hk0 : k = 0 := by omega
      subst hk0
      rw [List.take_zero, run_nil]
      show (489 : ℝ) ≤ HEIGHT - RADIUS
      rw [HEIGHT, RADIUS]
      norm_num)

end ProjectileMotion
